import Mathlib

set_option autoImplicit false

/-!
Shallow embedding of the nuxt-cache runtime composables
(`useFetchMemoryCache.ts`, `useStorageCache.ts`, `useMemoryCache.ts`).

Times are integers (milliseconds since the epoch, `Date#getTime`).
JavaScript values of the cached payload type are modelled by `JSValue`,
which keeps `undefined` and `null` apart from proper values, because the
source distinguishes them (`cached !== undefined`).
The ambient `Map<string, CachedData>` is modelled as an association list
with JavaScript `Map` get/set/delete semantics.
-/

namespace NuxtCache

/-- A JavaScript runtime value of payload type `V`: `undefined`, `null`, or a
proper value. `undefined` and `null` are distinct values in JavaScript. -/
inductive JSValue (V : Type) where
  | undefined : JSValue V
  | null : JSValue V
  | value : V → JSValue V
  deriving DecidableEq

namespace JSValue

/-- The `x !== undefined` test of the source (`true` when `x` is `undefined`). -/
def isUndefined {V : Type} : JSValue V → Bool
  | undefined => true
  | _ => false

end JSValue

/-- Association-list model of a JavaScript `Map` lookup (`Map.get`):
`none` for an absent key. -/
def getKey {α : Type} : List (String × α) → String → Option α
  | [], _ => none
  | (k', v) :: rest, k => if k' = k then some v else getKey rest k

/-- `Map.set`: replaces the value of an existing key in place, otherwise
appends a new entry. -/
def setKey {α : Type} : List (String × α) → String → α → List (String × α)
  | [], k, v => [(k, v)]
  | (k', v') :: rest, k, v => if k' = k then (k, v) :: rest else (k', v') :: setKey rest k v

/-- The mutation performed by `Map.delete`: removes the entries stored under
the key. -/
def delKey {α : Type} : List (String × α) → String → List (String × α)
  | [], _ => []
  | (k', v') :: rest, k => if k' = k then delKey rest k else (k', v') :: delKey rest k

/-! ## The self-contained fetch wrapper (`useFetchMemoryCache.ts`) -/

/-- `CachedData<T>` of `useFetchMemoryCache.ts`: payload plus the timestamp at
which it was fetched. -/
structure CachedData (V : Type) where
  data : JSValue V
  fetchedAt : Int
  deriving DecidableEq

/-- The ambient `Map<string, CachedData<unknown>>` held in the
`fetch-memory-cache` state slot. -/
abbrev MemStore (V : Type) := List (String × CachedData V)

/-- Embeds `createMemoryHandler` (useFetchMemoryCache.ts lines 52-60): stamps
the payload with `new Date()` (`now`), stores it under `key`, and returns the
entry. -/
def createMemoryHandler {V : Type} (store : MemStore V) (d : JSValue V) (key : String)
    (now : Int) : CachedData V × MemStore V :=
  let cachedData : CachedData V := ⟨d, now⟩
  (cachedData, setKey store key cachedData)

/-- Embeds `getMemoryCache` (useFetchMemoryCache.ts lines 65-80).
`expirationDate = fetchedAt + duration`; `isExpired = expirationDate < now`;
an expired entry is deleted from the map and `undefined` returned; an absent
key returns `undefined`; otherwise the stored payload (`data.data`) is
returned. The updated map is threaded explicitly. -/
def getMemoryCache {V : Type} (store : MemStore V) (key : String) (duration now : Int) :
    JSValue V × MemStore V :=
  match getKey store key with
  | none => (JSValue.undefined, store)
  | some data =>
    if data.fetchedAt + duration < now then (JSValue.undefined, delKey store key)
    else (data.data, store)

/-- Result of one `cachedFetch` call: the value returned (or the propagated
fetch error), the map afterwards, and how many times the fetcher ran. -/
structure FetchOutcome (E V : Type) where
  result : Except E (JSValue V)
  store : MemStore V
  networkCalls : Nat

/-- Embeds `cachedFetch` (useFetchMemoryCache.ts lines 103-130). The remote
fetch capability is modelled by its outcome `fetchResult` (a rejection
propagates; the source has no try/catch). `now` is the clock at the cache
check, `fetchedNow` the clock when the fetched entry is stamped by
`createMemoryHandler`. Unless `force`, the cache is consulted first and a
value that `!== undefined` is returned with no network call. -/
def cachedFetch {E V : Type} (fetchResult : Except E (JSValue V)) (key : String)
    (duration : Int) (force : Bool) (now fetchedNow : Int) (store : MemStore V) :
    FetchOutcome E V :=
  let fetchAndStore : MemStore V → FetchOutcome E V := fun s =>
    match fetchResult with
    | Except.error e => ⟨Except.error e, s, 1⟩
    | Except.ok d => ⟨Except.ok d, (createMemoryHandler s d key fetchedNow).2, 1⟩
  if force then fetchAndStore store
  else
    let looked := getMemoryCache store key duration now
    if looked.1.isUndefined then fetchAndStore looked.2
    else ⟨Except.ok looked.1, looked.2, 0⟩

/-- Embeds `clearCacheKey` (useFetchMemoryCache.ts lines 145-147):
`Map.delete` returns whether the key was present and removes it. -/
def clearCacheKey {V : Type} (store : MemStore V) (key : String) : Bool × MemStore V :=
  ((getKey store key).isSome, delKey store key)

/-- Embeds `clearCache` (useFetchMemoryCache.ts lines 159-162). -/
def clearCache {V : Type} (_store : MemStore V) : Bool × MemStore V :=
  (true, [])

/-- Embeds `getCacheKeys` (useFetchMemoryCache.ts lines 181-183). -/
def getCacheKeys {V : Type} (store : MemStore V) : List String :=
  store.map (·.1)

/-! ## The durable storage family (`useStorageCache.ts`) -/

/-- A JavaScript timestamp as produced by `new Date(x).getTime()` on a value
that crossed the serialize/deserialize boundary of the durable medium:
`none` models an invalid date (`getTime()` is `NaN`), `some t` a valid one. -/
abbrev JSTime := Option Int

/-- `expirationDate.setTime(expirationDate.getTime() + duration)`:
adding a number to `NaN` stays `NaN`. -/
def jsAddTime (t : JSTime) (d : Int) : JSTime := t.map (· + d)

/-- `expirationDate.getTime() < Date.now()`: every comparison with `NaN` is
`false` in JavaScript. -/
def jsLtTime (t : JSTime) (now : Int) : Bool :=
  match t with
  | none => false
  | some x => decide (x < now)

/-- `StorageData<T>` of `useStorageCache.ts`: the persisted envelope. Its
`fetchedAt` has been through the durable medium's serialization, so it may
deserialize to an invalid date. -/
structure StorageData (V : Type) where
  data : JSValue V
  fetchedAt : JSTime
  deriving DecidableEq

/-- The durable key-value medium backing `useStorage` (one record per
storage key). -/
abbrev StorageStore (V : Type) := List (String × StorageData V)

/-- Embeds the read side of VueUse's `useStorage(key, default)`: an absent
record is initialized to the default, which is also persisted
(`writeDefaults` is on by default); a present record wins. With
`mergeDefaults: true` the stored record is shallow-merged over the default;
both carry exactly the fields `data` and `fetchedAt`, so the merge is the
stored record itself. -/
def useStorageRead {V : Type} (store : StorageStore V) (storageKey : String)
    (dflt : StorageData V) : StorageData V × StorageStore V :=
  match getKey store storageKey with
  | none => (dflt, setKey store storageKey dflt)
  | some sv => (sv, store)

/-- Embeds `createStorageHandler` (useStorageCache.ts lines 27-39): a
`useStorage` ref for `storageKey` whose default is the envelope stamping the
given data with `new Date()` (`now`). -/
def createStorageHandler {V : Type} (store : StorageStore V) (storageKey : String)
    (d : JSValue V) (now : Int) : StorageData V × StorageStore V :=
  useStorageRead store storageKey ⟨d, some now⟩

/-- Embeds the body of `createStorageCache` (useStorageCache.ts lines 79-92),
given the current ref value `storage.value` produced by the `useStorage`
initialization on lines 72-78 (`none` models a null ref value). Returns the
value handed back to the orchestrator (`undefined` signalling a miss) and the
record afterwards: assigning `storage.value = null` on expiry removes the
persisted record, modelled as `none`. -/
def createStorageCache {V : Type} (storage : Option (StorageData V)) (duration now : Int) :
    JSValue V × Option (StorageData V) :=
  match storage with
  | none => (JSValue.undefined, none)
  | some sv =>
    if jsLtTime (jsAddTime sv.fetchedAt duration) now then (JSValue.undefined, none)
    else (sv.data, some sv)

/-- Embeds the `transform` hook of `useStorageCache` (useStorageCache.ts lines
121-123): persists the envelope via `createStorageHandler` and returns only
`.value.data` — the bare payload, with no timestamp in the returned shape. -/
def storageCacheTransform {V : Type} (store : StorageStore V) (storageKey : String)
    (input : JSValue V) (now : Int) : JSValue V × StorageStore V :=
  let r := createStorageHandler store storageKey input now
  (r.1.data, r.2)

/-! ## The payload-state memory family (`useMemoryCache.ts`) -/

/-- `MemoryCache<T>` of `types.ts`: the entry produced by the memory-family
`transform` hook — the payload fields spread together with a fresh
`fetchedAt`. -/
structure MemoryCache (V : Type) where
  data : V
  fetchedAt : Int
  deriving DecidableEq

/-- Embeds the `transform` hook of `useMemoryCache` (useMemoryCache.ts lines
21-26): `{ ...input, fetchedAt: new Date() }` — the input's own fields (the
payload) together with the timestamp, returned to the caller. -/
def memoryCacheTransform {V : Type} (input : V) (now : Int) : MemoryCache V :=
  ⟨input, now⟩

/-- Embeds `getCachedData` of `useMemoryCache` (useMemoryCache.ts lines
27-44), identically the standalone `createMemoryCache` of the
createMemoryCache variant file: reads
`nuxtApp.payload.data[key] || nuxtApp.static.data[key]`, returns `undefined`
(`none`) when absent or expired and the full entry otherwise. The two backing
records are threaded through unchanged in every branch: the source performs
no mutation — in particular no deletion of an expired entry. -/
def createMemoryCache {V : Type} (payloadData staticData : List (String × MemoryCache V))
    (key : String) (duration now : Int) :
    Option (MemoryCache V) × List (String × MemoryCache V) × List (String × MemoryCache V) :=
  match (getKey payloadData key).orElse (fun _ => getKey staticData key) with
  | none => (none, payloadData, staticData)
  | some d =>
    if d.fetchedAt + duration < now then (none, payloadData, staticData)
    else (some d, payloadData, staticData)

/-! ## Dependency injection (`provideFetchMemoryCache` / `useFetchMemoryCache`) -/

/-- The provide/inject environment of the component tree: what values are
available under which injection keys at the point of a lookup. -/
abbrev InjectionEnv (α : Type) := List (String × α)

/-- The `Symbol('fetch-memory-cache-store')` injection key. -/
def storeKey : String := "fetch-memory-cache-store"

/-- Embeds `provideFetchMemoryCache` (useFetchMemoryCache.ts lines 217-221):
`provide(storeKey, state)` and return the state. -/
def provideFetchMemoryCache {α : Type} (env : InjectionEnv α) (state : α) :
    α × InjectionEnv α :=
  (state, setKey env storeKey state)

/-- Embeds `useFetchMemoryCache` (useFetchMemoryCache.ts lines 294-296):
`return inject(storeKey)!`. Vue's `inject` without a default returns the
provided value, or `undefined` when no provider is in scope; the TypeScript
non-null assertion `!` is a compile-time cast erased at runtime, so no runtime
check, throw, or fallback is performed. -/
def useFetchMemoryCache {α : Type} (env : InjectionEnv α) : Option α :=
  getKey env storeKey

/-! Lemmas about the `Map` model. -/

@[simp]
theorem getKey_nil {α : Type} (k : String) : getKey ([] : List (String × α)) k = none := rfl

theorem getKey_setKey_self {α : Type} (l : List (String × α)) (k : String) (v : α) :
    getKey (setKey l k v) k = some v := by
  induction l with
  | nil => simp [setKey, getKey]
  | cons hd tl ih =>
    obtain ⟨k', v'⟩ := hd
    by_cases h : k' = k <;> simp [setKey, getKey, h, ih]

theorem getKey_setKey_ne {α : Type} (l : List (String × α)) (k k' : String) (v : α)
    (h : k' ≠ k) : getKey (setKey l k v) k' = getKey l k' := by
  have h' : ¬ k = k' := fun hh => h hh.symm
  induction l with
  | nil => simp [setKey, getKey, h']
  | cons hd tl ih =>
    obtain ⟨k₀, v₀⟩ := hd
    by_cases h0 : k₀ = k
    · subst h0
      simp [setKey, getKey, h']
    · simp only [setKey, if_neg h0, getKey]
      by_cases h1 : k₀ = k' <;> simp [h1, ih]

theorem getKey_delKey_self {α : Type} (l : List (String × α)) (k : String) :
    getKey (delKey l k) k = none := by
  induction l with
  | nil => simp [delKey]
  | cons hd tl ih =>
    obtain ⟨k', v'⟩ := hd
    by_cases h : k' = k <;> simp [delKey, getKey, h, ih]

theorem getKey_delKey_ne {α : Type} (l : List (String × α)) (k k' : String)
    (h : k' ≠ k) : getKey (delKey l k) k' = getKey l k' := by
  have h' : ¬ k = k' := fun hh => h hh.symm
  induction l with
  | nil => simp [delKey]
  | cons hd tl ih =>
    obtain ⟨k₀, v₀⟩ := hd
    by_cases h0 : k₀ = k
    · subst h0
      simp [delKey, getKey, h', ih]
    · simp only [delKey, if_neg h0, getKey]
      by_cases h1 : k₀ = k' <;> simp [h1, ih]

/-! Helper lemmas about `getMemoryCache` and `cachedFetch`. -/

theorem getMemoryCache_absent {V : Type} {store : MemStore V} {key : String}
    {duration now : Int} (h : getKey store key = none) :
    getMemoryCache store key duration now = (JSValue.undefined, store) := by
  unfold getMemoryCache
  rw [h]

theorem getMemoryCache_fresh {V : Type} {store : MemStore V} {key : String}
    {v : JSValue V} {t0 duration now : Int} (h : getKey store key = some ⟨v, t0⟩)
    (hf : ¬ t0 + duration < now) :
    getMemoryCache store key duration now = (v, store) := by
  unfold getMemoryCache
  rw [h]
  simp [hf]

theorem getMemoryCache_expired {V : Type} {store : MemStore V} {key : String}
    {v : JSValue V} {t0 duration now : Int} (h : getKey store key = some ⟨v, t0⟩)
    (he : t0 + duration < now) :
    getMemoryCache store key duration now = (JSValue.undefined, delKey store key) := by
  unfold getMemoryCache
  rw [h]
  simp [he]

theorem cachedFetch_force {E V : Type} (fetchResult : Except E (JSValue V))
    (key : String) (duration now fetchedNow : Int) (store : MemStore V) :
    cachedFetch fetchResult key duration true now fetchedNow store =
      match fetchResult with
      | Except.error e => ⟨Except.error e, store, 1⟩
      | Except.ok d => ⟨Except.ok d, setKey store key ⟨d, fetchedNow⟩, 1⟩ := by
  unfold cachedFetch createMemoryHandler
  simp

theorem cachedFetch_hit {E V : Type} (fetchResult : Except E (JSValue V))
    {key : String} {duration now : Int} (fetchedNow : Int) {store : MemStore V}
    {v : JSValue V} {t0 : Int} (h : getKey store key = some ⟨v, t0⟩)
    (hv : v.isUndefined = false) (hf : ¬ t0 + duration < now) :
    cachedFetch fetchResult key duration false now fetchedNow store =
      ⟨Except.ok v, store, 0⟩ := by
  unfold cachedFetch
  simp [getMemoryCache_fresh h hf, hv]

theorem cachedFetch_miss_absent {E V : Type} (fetchResult : Except E (JSValue V))
    {key : String} {duration : Int} {now : Int} (fetchedNow : Int) {store : MemStore V}
    (h : getKey store key = none) :
    cachedFetch fetchResult key duration false now fetchedNow store =
      match fetchResult with
      | Except.error e => ⟨Except.error e, store, 1⟩
      | Except.ok d => ⟨Except.ok d, setKey store key ⟨d, fetchedNow⟩, 1⟩ := by
  unfold cachedFetch createMemoryHandler
  simp [getMemoryCache_absent h, JSValue.isUndefined]

theorem cachedFetch_miss_expired {E V : Type} (fetchResult : Except E (JSValue V))
    {key : String} {duration now : Int} (fetchedNow : Int) {store : MemStore V}
    {v : JSValue V} {t0 : Int} (h : getKey store key = some ⟨v, t0⟩)
    (he : t0 + duration < now) :
    cachedFetch fetchResult key duration false now fetchedNow store =
      match fetchResult with
      | Except.error e => ⟨Except.error e, delKey store key, 1⟩
      | Except.ok d => ⟨Except.ok d, setKey (delKey store key) key ⟨d, fetchedNow⟩, 1⟩ := by
  unfold cachedFetch createMemoryHandler
  simp [getMemoryCache_expired h he, JSValue.isUndefined]

theorem cachedFetch_miss_undefined_payload {E V : Type} (fetchResult : Except E (JSValue V))
    {key : String} {duration now : Int} (fetchedNow : Int) {store : MemStore V}
    {t0 : Int} (h : getKey store key = some ⟨JSValue.undefined, t0⟩)
    (hf : ¬ t0 + duration < now) :
    cachedFetch fetchResult key duration false now fetchedNow store =
      match fetchResult with
      | Except.error e => ⟨Except.error e, store, 1⟩
      | Except.ok d => ⟨Except.ok d, setKey store key ⟨d, fetchedNow⟩, 1⟩ := by
  unfold cachedFetch createMemoryHandler
  simp [getMemoryCache_fresh h hf, JSValue.isUndefined]

/-! ## Claims -/

/-- C1 (counterexample): the claim says that with `duration = 0` every entry is
always expired, and that an entry is expired for all `now >= t0 + d`. At
`t0 = 0`, `d = 0`, `now = 0` (so `now = t0 + d`) all three validity checks
still treat the entry as fresh: `getMemoryCache` returns the payload and keeps
the entry, and `createStorageCache` returns the payload. -/
theorem freshness_boundary_counterexample :
    (getMemoryCache [("k", (⟨JSValue.value 1, 0⟩ : CachedData Int))] "k" 0 0).1 =
      JSValue.value 1 ∧
    (getMemoryCache [("k", (⟨JSValue.value 1, 0⟩ : CachedData Int))] "k" 0 0).2 =
      [("k", ⟨JSValue.value 1, 0⟩)] ∧
    (createStorageCache (some (⟨JSValue.value 1, some 0⟩ : StorageData Int)) 0 0).1 =
      JSValue.value 1 ∧
    (createMemoryCache [("k", (⟨(1 : Int), 0⟩ : MemoryCache Int))] [] "k" 0 0).1 =
      some ⟨1, 0⟩ := by
  refine ⟨?_, ?_, ?_, ?_⟩ <;> decide

/-- C1 (amended): every validity check computes `isExpired = t0 + d < now`, so
an entry fetched at `t0` with duration `d` is fresh for all `now ≤ t0 + d` and
expired for all `now > t0 + d`; in particular an entry fetched exactly `d`
milliseconds ago is still fresh, and with `d = 0` an entry is fresh exactly at
`now = t0` (and earlier). Stated for `getMemoryCache`, `createStorageCache`
and the `useMemoryCache` reader `createMemoryCache` at once. -/
theorem freshness_boundary_amended {V W U : Type}
    (store : MemStore V) (k : String) (v : JSValue V) (t0 d now : Int)
    (h : getKey store k = some ⟨v, t0⟩)
    (w : JSValue W)
    (pd sd : List (String × MemoryCache U)) (e : MemoryCache U)
    (hp : getKey pd k = some e) (he : e.fetchedAt = t0) :
    (getMemoryCache store k d now =
      if t0 + d < now then (JSValue.undefined, delKey store k) else (v, store)) ∧
    (createStorageCache (some ⟨w, some t0⟩) d now =
      if t0 + d < now then (JSValue.undefined, none) else (w, some ⟨w, some t0⟩)) ∧
    (createMemoryCache pd sd k d now =
      if t0 + d < now then (none, pd, sd) else (some e, pd, sd)) := by
  refine ⟨?_, ?_, ?_⟩
  · by_cases hc : t0 + d < now
    · simp [hc, getMemoryCache_expired h hc]
    · simp [hc, getMemoryCache_fresh h hc]
  · unfold createStorageCache jsLtTime jsAddTime
    by_cases hc : t0 + d < now <;> simp [hc]
  · have hor : (getKey pd k).orElse (fun _ => getKey sd k) = some e := by
      rw [hp]; rfl
    unfold createMemoryCache
    rw [hor]
    by_cases hc : t0 + d < now <;> simp [he, hc]

/-- C1 witness: the amended boundary at a concrete fresh instance
(`t0 = 0`, `d = 10`, `now = 3`). -/
theorem freshness_boundary_amended_witness :
    getMemoryCache [("k", (⟨JSValue.value 5, 0⟩ : CachedData Int))] "k" 10 3 =
      (JSValue.value 5, [("k", ⟨JSValue.value 5, 0⟩)]) ∧
    createStorageCache (some (⟨JSValue.value 7, some 0⟩ : StorageData Int)) 10 3 =
      (JSValue.value 7, some ⟨JSValue.value 7, some 0⟩) ∧
    createMemoryCache [("k", (⟨(9 : Int), 0⟩ : MemoryCache Int))] [] "k" 10 3 =
      (some ⟨9, 0⟩, [("k", ⟨9, 0⟩)], []) := by
  have h := freshness_boundary_amended (V := Int) (W := Int) (U := Int)
      [("k", ⟨JSValue.value 5, 0⟩)] "k" (JSValue.value 5) 0 10 3 (by decide)
      (JSValue.value 7) [("k", ⟨9, 0⟩)] [] ⟨9, 0⟩ (by decide) (by decide)
  simpa using h

/-- C2 (counterexample): the claim says every validity-checking read removes an
expired entry from its backing store. The `useMemoryCache` reader
(`getCachedData` / `createMemoryCache`) returns absent on an expired entry
(`t0 = 0`, `d = 5`, `now = 10`) but performs no removal: the entry is still
present under the key afterwards. -/
theorem evict_on_read_counterexample :
    (createMemoryCache [("k", (⟨(1 : Int), 0⟩ : MemoryCache Int))] [] "k" 5 10).1 = none ∧
    getKey (createMemoryCache [("k", (⟨(1 : Int), 0⟩ : MemoryCache Int))] [] "k" 5 10).2.1
      "k" = some ⟨1, 0⟩ := by
  exact ⟨by decide, by decide⟩

/-- C2 (amended): on a read that finds an expired entry, `getMemoryCache`
returns absent and deletes the key from the map, and `createStorageCache`
returns absent and clears the persisted record; but the `useMemoryCache`
reader `createMemoryCache` only returns absent — the expired entry stays in
the orchestrator's payload state. -/
theorem evict_on_read_amended {V W U : Type} (store : MemStore V) (k : String)
    (v : JSValue V) (t0 d now : Int) (h : getKey store k = some ⟨v, t0⟩)
    (he : t0 + d < now)
    (sv : StorageData W) (hsv : jsLtTime (jsAddTime sv.fetchedAt d) now = true)
    (pd sd : List (String × MemoryCache U)) (e : MemoryCache U)
    (hp : getKey pd k = some e) (hem : e.fetchedAt + d < now) :
    (getMemoryCache store k d now = (JSValue.undefined, delKey store k) ∧
      getKey (getMemoryCache store k d now).2 k = none) ∧
    createStorageCache (some sv) d now = (JSValue.undefined, none) ∧
    (createMemoryCache pd sd k d now = (none, pd, sd) ∧
      getKey (createMemoryCache pd sd k d now).2.1 k = some e) := by
  refine ⟨⟨getMemoryCache_expired h he, ?_⟩, ?_, ?_, ?_⟩
  · rw [getMemoryCache_expired h he]
    exact getKey_delKey_self store k
  · unfold createStorageCache
    simp [hsv]
  · have hor : (getKey pd k).orElse (fun _ => getKey sd k) = some e := by
      rw [hp]; rfl
    unfold createMemoryCache
    rw [hor]
    simp [hem]
  · have hor : (getKey pd k).orElse (fun _ => getKey sd k) = some e := by
      rw [hp]; rfl
    unfold createMemoryCache
    rw [hor]
    simp [hem, hp]

/-- C2 witness: the amended behaviour at a concrete expired instance
(`t0 = 0`, `d = 5`, `now = 10`). -/
theorem evict_on_read_amended_witness :
    (getMemoryCache [("k", (⟨JSValue.value 1, 0⟩ : CachedData Int))] "k" 5 10 =
      (JSValue.undefined, []) ∧
      getKey (getMemoryCache [("k", (⟨JSValue.value 1, 0⟩ : CachedData Int))] "k" 5 10).2
        "k" = none) ∧
    createStorageCache (some (⟨JSValue.value 2, some 0⟩ : StorageData Int)) 5 10 =
      (JSValue.undefined, none) ∧
    (createMemoryCache [("k", (⟨(3 : Int), 0⟩ : MemoryCache Int))] [] "k" 5 10 =
      (none, [("k", ⟨3, 0⟩)], []) ∧
      getKey (createMemoryCache [("k", (⟨(3 : Int), 0⟩ : MemoryCache Int))] [] "k" 5 10).2.1
        "k" = some ⟨3, 0⟩) := by
  have h := evict_on_read_amended (V := Int) (W := Int) (U := Int)
      [("k", ⟨JSValue.value 1, 0⟩)] "k" (JSValue.value 1) 0 5 10 (by decide) (by decide)
      ⟨JSValue.value 2, some 0⟩ (by decide)
      [("k", ⟨3, 0⟩)] [] ⟨3, 0⟩ (by decide) (by decide)
  simpa using h

/-- C4 (counterexample): the claim says a persisted envelope whose serialized
`fetchedAt` is corrupted reads back as a cache miss. With an invalid
deserialized timestamp (`getTime()` is `NaN`), every comparison is false, so
`createStorageCache` treats the entry as not expired and returns the corrupt
entry's payload — a hit, not a miss — and leaves the record in place. -/
theorem serialization_failure_counterexample :
    (createStorageCache (some (⟨JSValue.value 42, none⟩ : StorageData Int)) 1000 999999).1 =
      JSValue.value 42 ∧
    (createStorageCache (some (⟨JSValue.value 42, none⟩ : StorageData Int)) 1000 999999).1 ≠
      JSValue.undefined ∧
    (createStorageCache (some (⟨JSValue.value 42, none⟩ : StorageData Int)) 1000 999999).2 =
      some ⟨JSValue.value 42, none⟩ := by
  refine ⟨?_, ?_, ?_⟩ <;> decide

/-- C4 (amended): reading back an envelope whose deserialized `fetchedAt` is
invalid does not crash the caller, but it does not degrade to a miss either:
the `NaN` expiry comparison is false for every duration and clock, so the read
returns the stored payload as a hit and keeps the corrupt record (it can never
expire). -/
theorem serialization_failure_amended {V : Type} (v : JSValue V) (d now : Int) :
    createStorageCache (some ⟨v, none⟩) d now = (v, some ⟨v, none⟩) := by
  unfold createStorageCache jsAddTime jsLtTime
  simp

/-- C9 (code bug): requesting the hook bundle outside a providing scope does
not raise: `inject(storeKey)!` is a runtime no-op cast, so with no provider in
the environment the hook silently evaluates to the absent bundle (`none`),
while under a provider it returns the provided bundle. -/
theorem injection_fail_fast_violated :
    useFetchMemoryCache ([] : InjectionEnv Unit) = none ∧
    useFetchMemoryCache (provideFetchMemoryCache ([] : InjectionEnv Unit) ()).2 =
      some () := by
  exact ⟨rfl, rfl⟩

/-- C3 (counterexample): the claim says that when the fetcher rejects, a
present entry keeps its payload and `fetchedAt` unchanged. With an expired
entry (`t0 = 0`, `d = 5`, `now = 10`) and a rejecting fetcher, `cachedFetch`
propagates the error, but the pre-fetch lookup already evicted the entry: the
key that was present before the call is gone afterwards. -/
theorem no_write_on_failure_counterexample :
    (cachedFetch (E := String) (Except.error "boom") "k" 5 false 10 10
        [("k", (⟨JSValue.value 1, 0⟩ : CachedData Int))]).result = Except.error "boom" ∧
    (cachedFetch (E := String) (Except.error "boom") "k" 5 false 10 10
        [("k", (⟨JSValue.value 1, 0⟩ : CachedData Int))]).store = [] ∧
    getKey [("k", (⟨JSValue.value 1, 0⟩ : CachedData Int))] "k" =
      some ⟨JSValue.value 1, 0⟩ := by
  exact ⟨rfl, rfl, rfl⟩

/-- C3 (amended): when the fetcher rejects, `cachedFetch` propagates the error
unmodified and writes nothing: with `force` the store is untouched; an absent
key stays absent; a fresh entry with a defined payload is served from cache
(the fetch never runs); a fresh entry whose payload is `undefined` misses but
stays untouched; an expired entry has already been evicted by the pre-fetch
lookup and remains deleted after the failure. -/
theorem no_write_on_failure_amended {E V : Type} (e : E) (k : String)
    (d now wn : Int) (store : MemStore V) :
    ((cachedFetch (Except.error e) k d true now wn store).result = Except.error e ∧
      (cachedFetch (Except.error e) k d true now wn store).store = store) ∧
    (getKey store k = none →
      cachedFetch (V := V) (Except.error e) k d false now wn store =
        ⟨Except.error e, store, 1⟩) ∧
    (∀ (v : JSValue V) (t0 : Int), getKey store k = some ⟨v, t0⟩ →
      v.isUndefined = false → ¬ t0 + d < now →
      cachedFetch (Except.error e) k d false now wn store = ⟨Except.ok v, store, 0⟩) ∧
    (∀ (t0 : Int), getKey store k = some ⟨JSValue.undefined, t0⟩ → ¬ t0 + d < now →
      cachedFetch (Except.error e) k d false now wn store =
        ⟨Except.error e, store, 1⟩) ∧
    (∀ (v : JSValue V) (t0 : Int), getKey store k = some ⟨v, t0⟩ → t0 + d < now →
      cachedFetch (Except.error e) k d false now wn store =
        ⟨Except.error e, delKey store k, 1⟩) := by
  refine ⟨⟨?_, ?_⟩, ?_, ?_, ?_, ?_⟩
  · rw [cachedFetch_force]
  · rw [cachedFetch_force]
  · intro h
    rw [cachedFetch_miss_absent (Except.error e) wn h]
  · intro v t0 hk hv hf
    exact cachedFetch_hit (Except.error e) wn hk hv hf
  · intro t0 hk hf
    rw [cachedFetch_miss_undefined_payload (Except.error e) wn hk hf]
  · intro v t0 hk he
    rw [cachedFetch_miss_expired (Except.error e) wn hk he]

/-- C3 witness: the amended behaviour at concrete instances — forced failure
leaves the store as is; a failure over a fresh entry is a hit with no change;
a failure over an expired entry leaves the key deleted. -/
theorem no_write_on_failure_amended_witness :
    (cachedFetch (E := String) (V := Int) (Except.error "x") "k" 10 true 3 3
        [("k", ⟨JSValue.value 1, 0⟩)]).store = [("k", ⟨JSValue.value 1, 0⟩)] ∧
    cachedFetch (E := String) (V := Int) (Except.error "x") "k" 10 false 3 3
        [("k", ⟨JSValue.value 1, 0⟩)] =
      ⟨Except.ok (JSValue.value 1), [("k", ⟨JSValue.value 1, 0⟩)], 0⟩ ∧
    cachedFetch (E := String) (V := Int) (Except.error "x") "k" 10 false 20 20
        [("k", ⟨JSValue.value 1, 0⟩)] = ⟨Except.error "x", [], 1⟩ := by
  have h1 := no_write_on_failure_amended (V := Int) "x" "k" 10 3 3
      [("k", ⟨JSValue.value 1, 0⟩)]
  have h2 := no_write_on_failure_amended (V := Int) "x" "k" 10 20 20
      [("k", ⟨JSValue.value 1, 0⟩)]
  refine ⟨h1.1.2, h1.2.2.1 (JSValue.value 1) 0 (by decide) (by decide) (by decide), ?_⟩
  have h3 := h2.2.2.2.2 (JSValue.value 1) 0 (by decide) (by decide)
  exact h3

/-- C5 (confirmed): with `force` false and a fresh entry whose payload is a
defined value under the key, `cachedFetch` returns the cached payload with
zero network calls and an unchanged store (for any fetcher outcome); starting
from an absent key, the first call fetches once and stores the entry, and a
second call with the same key and duration before expiry returns that entry's
payload with zero further network calls, leaving the store exactly as the
first call wrote it. (The fresh-but-`undefined`-payload exception is claim
C10.) -/
theorem idempotent_hit {E V : Type} (store : MemStore V) (k : String) (d : Int)
    (fr : Except E (JSValue V)) (now wn : Int) :
    (∀ (v : JSValue V) (t0 : Int), getKey store k = some ⟨v, t0⟩ →
      v.isUndefined = false → ¬ t0 + d < now →
      cachedFetch fr k d false now wn store = ⟨Except.ok v, store, 0⟩) ∧
    (∀ (dv : JSValue V) (now₂ wn₂ : Int) (fr₂ : Except E (JSValue V)),
      getKey store k = none → dv.isUndefined = false → ¬ wn + d < now₂ →
      cachedFetch (E := E) (Except.ok dv) k d false now wn store =
        ⟨Except.ok dv, setKey store k ⟨dv, wn⟩, 1⟩ ∧
      cachedFetch fr₂ k d false now₂ wn₂ (setKey store k ⟨dv, wn⟩) =
        ⟨Except.ok dv, setKey store k ⟨dv, wn⟩, 0⟩) := by
  constructor
  · intro v t0 hk hv hf
    exact cachedFetch_hit fr wn hk hv hf
  · intro dv now₂ wn₂ fr₂ habs hdv hfresh
    constructor
    · rw [cachedFetch_miss_absent (Except.ok dv) wn habs]
    · exact cachedFetch_hit fr₂ wn₂ (getKey_setKey_self store k ⟨dv, wn⟩) hdv hfresh

/-- C5 witness: on an empty store, a first call at `now = 0` fetches once and
stores the payload stamped `wn = 5`; a second call at `now = 50` with
`d = 100` (no intervening expiry) returns it with zero network calls even
though its own fetcher would reject. -/
theorem idempotent_hit_witness :
    cachedFetch (E := String) (Except.ok (JSValue.value (1 : Int))) "k" 100 false 0 5 [] =
      ⟨Except.ok (JSValue.value 1), [("k", ⟨JSValue.value 1, 5⟩)], 1⟩ ∧
    cachedFetch (E := String) (V := Int) (Except.error "y") "k" 100 false 50 50
        [("k", ⟨JSValue.value 1, 5⟩)] =
      ⟨Except.ok (JSValue.value 1), [("k", ⟨JSValue.value 1, 5⟩)], 0⟩ := by
  have h := (idempotent_hit (E := String) (V := Int) [] "k" 100 (Except.error "y") 0 5).2
      (JSValue.value 1) 50 50 (Except.error "y") rfl (by decide) (by decide)
  exact ⟨h.1, h.2⟩

/-- C6 (confirmed): with `force` true, `cachedFetch` skips the cache lookup
for every store — including one holding a fresh entry — performs the network
call (one fetcher invocation), and on success overwrites the key wholesale
with the fetched payload stamped with the new `fetchedAt`. -/
theorem force_bypass {E V : Type} (store : MemStore V) (k : String) (d : Int)
    (dv : JSValue V) (now wn : Int) :
    cachedFetch (E := E) (Except.ok dv) k d true now wn store =
      ⟨Except.ok dv, setKey store k ⟨dv, wn⟩, 1⟩ ∧
    getKey (cachedFetch (E := E) (Except.ok dv) k d true now wn store).store k =
      some ⟨dv, wn⟩ := by
  constructor
  · rw [cachedFetch_force]
  · rw [cachedFetch_force]
    exact getKey_setKey_self store k ⟨dv, wn⟩

/-- C7 (confirmed): the memory-family `transform` returns the full entry — the
payload together with the fresh `fetchedAt` — to the caller, while the
storage-family `transform` persists the envelope `{data, fetchedAt}` under the
storage key (stated for a pristine record) and hands the caller only the bare
payload, whose shape carries no timestamp. -/
theorem dual_shape_contract {U V : Type} (input : U) (now : Int)
    (store : StorageStore V) (sk : String) (raw : JSValue V)
    (h : getKey store sk = none) :
    ((memoryCacheTransform input now).data = input ∧
      (memoryCacheTransform input now).fetchedAt = now) ∧
    storageCacheTransform store sk raw now = (raw, setKey store sk ⟨raw, some now⟩) ∧
    getKey (storageCacheTransform store sk raw now).2 sk = some ⟨raw, some now⟩ := by
  refine ⟨⟨rfl, rfl⟩, ?_, ?_⟩
  · unfold storageCacheTransform createStorageHandler useStorageRead
    rw [h]
  · unfold storageCacheTransform createStorageHandler useStorageRead
    rw [h]
    exact getKey_setKey_self store sk ⟨raw, some now⟩

/-- C7 witness: the dual shapes at a concrete input on an empty storage
record. -/
theorem dual_shape_contract_witness :
    ((memoryCacheTransform (3 : Int) 7).data = 3 ∧
      (memoryCacheTransform (3 : Int) 7).fetchedAt = 7) ∧
    storageCacheTransform ([] : StorageStore Int) "sk" (JSValue.value 4) 7 =
      (JSValue.value 4, [("sk", ⟨JSValue.value 4, some 7⟩)]) ∧
    getKey (storageCacheTransform ([] : StorageStore Int) "sk" (JSValue.value 4) 7).2
      "sk" = some ⟨JSValue.value 4, some 7⟩ := by
  exact dual_shape_contract (3 : Int) 7 ([] : StorageStore Int) "sk" (JSValue.value 4) rfl

/-- C8 (confirmed): `clearCacheKey` returns `true` exactly when an entry was
present under the key before the call, the key is absent from the resulting
store, and any subsequent non-forced `cachedFetch` on that store with that key
performs the network call (one fetcher invocation), whatever the fetcher's
outcome, duration, or clock. -/
theorem clear_key_contract {E V : Type} (store : MemStore V) (k : String) :
    (clearCacheKey store k).1 = (getKey store k).isSome ∧
    getKey (clearCacheKey store k).2 k = none ∧
    ∀ (fr : Except E (JSValue V)) (d now wn : Int),
      (cachedFetch fr k d false now wn (clearCacheKey store k).2).networkCalls = 1 := by
  refine ⟨rfl, getKey_delKey_self store k, ?_⟩
  intro fr d now wn
  have h : getKey (clearCacheKey store k).2 k = none := getKey_delKey_self store k
  rw [cachedFetch_miss_absent fr wn h]
  cases fr <;> rfl

/-- C10 (confirmed): `cachedFetch` tests the looked-up value against
`undefined`, so a fresh entry whose stored payload is itself `undefined` is
treated as a miss — the fetcher runs and the entry is rewritten — while a
stored payload of `null` is a normal hit returned with zero network calls and
an unchanged store. -/
theorem undefined_payload_vs_null {E V : Type} (store₁ store₂ : MemStore V)
    (k : String) (t0 d now wn : Int) (dv : JSValue V) (fr₂ : Except E (JSValue V)) :
    (getKey store₁ k = some ⟨JSValue.undefined, t0⟩ → ¬ t0 + d < now →
      cachedFetch (E := E) (Except.ok dv) k d false now wn store₁ =
        ⟨Except.ok dv, setKey store₁ k ⟨dv, wn⟩, 1⟩) ∧
    (getKey store₂ k = some ⟨JSValue.null, t0⟩ → ¬ t0 + d < now →
      cachedFetch fr₂ k d false now wn store₂ = ⟨Except.ok JSValue.null, store₂, 0⟩) := by
  constructor
  · intro h hf
    rw [cachedFetch_miss_undefined_payload (Except.ok dv) wn h hf]
  · intro h hf
    exact cachedFetch_hit fr₂ wn h rfl hf

/-- C10 witness: a fresh `undefined`-payload entry is refetched and rewritten;
a fresh `null`-payload entry is served as a hit with no network call. -/
theorem undefined_payload_vs_null_witness :
    cachedFetch (E := String) (V := Int) (Except.ok (JSValue.value 2)) "k" 10 false 3 4
        [("k", ⟨JSValue.undefined, 0⟩)] =
      ⟨Except.ok (JSValue.value 2), [("k", ⟨JSValue.value 2, 4⟩)], 1⟩ ∧
    cachedFetch (E := String) (V := Int) (Except.error "z") "k" 10 false 3 4
        [("k", ⟨JSValue.null, 0⟩)] =
      ⟨Except.ok JSValue.null, [("k", ⟨JSValue.null, 0⟩)], 0⟩ := by
  have h := undefined_payload_vs_null (E := String) (V := Int)
      [("k", ⟨JSValue.undefined, 0⟩)] [("k", ⟨JSValue.null, 0⟩)] "k" 0 10 3 4
      (JSValue.value 2) (Except.error "z")
  exact ⟨h.1 rfl (by decide), h.2 rfl (by decide)⟩

end NuxtCache
